import Mathlib

/-!
# Verification of the URL-shortener core (Go repository `GoProject`)

Shallow embedding of the repository's core:

* `internal/pkg/utils/random.go` — `GenerateRandomString` (random code generator,
  `crypto/rand` + `base64.RawURLEncoding` + truncation);
* `internal/services/shortener_service.go` — `shortenerSvc.CreateShortURL`,
  `ValidateURL`, `UpdateLongURL`, `DeleteMapping`;
* `internal/repositories/shortener_repo.go` — the SQLite-backed
  `ShortenerRepository` (table `urls` with a UNIQUE constraint on `short_code`);
* the slice of Go 1.23's `net/url` (`ParseRequestURI` and its helpers) that
  `ValidateURL` depends on (external standard library, embedded at the level of
  Unicode characters; Go operates on bytes, which agrees with the character
  level on all UTF-8 inputs for every construct used here).

Go strings are modelled as Lean `String`/`List Char`; Go `int` as `Int` with
Go's truncated division `Int.tdiv`; the entropy source `crypto/rand.Reader` as
an explicit byte stream; SQL state as a list of rows in rowid order.
-/

set_option autoImplicit false

namespace GoShortener

/-! ## Entropy source: model of `crypto/rand.Reader`

`crypto/rand.Read(b)` fills `b` completely or returns an error.  The stream
holds the (arbitrary) bytes the OS would produce; `avail = some a` lets the
source fail once more than `a` total bytes are requested (`none`: never
fails).  Reading zero bytes always succeeds (`io.ReadFull` with an empty
buffer returns immediately with no error). -/

structure ByteStream where
  bytes : Nat → Nat
  pos : Nat
  avail : Option Nat

/-- Bytes delivered by `rand.Read` are machine bytes: value `% 256`. -/
def ByteStream.read (g : ByteStream) (n : Nat) :
    Option (List Nat × ByteStream) :=
  if n = 0 then some ([], g)
  else
    match g.avail with
    | none =>
        some ((List.range n).map (fun i => g.bytes (g.pos + i) % 256),
              { g with pos := g.pos + n })
    | some a =>
        if g.pos + n ≤ a then
          some ((List.range n).map (fun i => g.bytes (g.pos + i) % 256),
                { g with pos := g.pos + n })
        else none

/-! ## `base64.RawURLEncoding.EncodeToString`

URL-safe alphabet, no padding.  Three input bytes become four output
characters; a final group of one byte becomes two characters, of two bytes
three characters. -/

def b64urlAlphabet : List Char :=
  "ABCDEFGHIJKLMNOPQRSTUVWXYZabcdefghijklmnopqrstuvwxyz0123456789-_".data

def b64char (n : Nat) : Char := b64urlAlphabet.getD n 'A'

def rawURLEncode : List Nat → List Char
  | b0 :: b1 :: b2 :: rest =>
      b64char (b0 / 4) :: b64char (b0 % 4 * 16 + b1 / 16) ::
      b64char (b1 % 16 * 4 + b2 / 64) :: b64char (b2 % 64) :: rawURLEncode rest
  | [b0, b1] => [b64char (b0 / 4), b64char (b0 % 4 * 16 + b1 / 16),
                 b64char (b1 % 16 * 4)]
  | [b0] => [b64char (b0 / 4), b64char (b0 % 4 * 16)]
  | [] => []

/-! ## `utils.GenerateRandomString` (random.go:8-20)

```go
func GenerateRandomString(length int) (string, error) {
    numBytes := (length*6)/8 + 1
    b := make([]byte, numBytes)
    _, err := rand.Read(b)
    if err != nil { return "", err }
    randomString := base64.RawURLEncoding.EncodeToString(b)
    if len(randomString) > length { return randomString[:length], nil }
    return randomString, nil
}
```

`make([]byte, numBytes)` panics at run time when `numBytes` is negative
(`makeslice: len out of range`); `randomString[:length]` panics when
`length` is negative (`slice bounds out of range`).  Both panic sites are
kept distinct. -/

inductive GenOut where
  | ok (s : String) (g : ByteStream)
  | entropyErr
  | panicMakeNegLen
  | panicSliceNeg

def GenerateRandomString (length : Int) (g : ByteStream) : GenOut :=
  let numBytes : Int := Int.tdiv (length * 6) 8 + 1
  if numBytes < 0 then .panicMakeNegLen
  else
    match g.read numBytes.toNat with
    | none => .entropyErr
    | some (b, g') =>
        let randomString := rawURLEncode b
        if (randomString.length : Int) > length then
          if length < 0 then .panicSliceNeg
          else .ok (String.mk (randomString.take length.toNat)) g'
        else .ok (String.mk randomString) g'

/-! ## Go 1.23 `net/url`: the slice used by `ValidateURL`

`ValidateURL` (shortener_service.go:75-81) calls `url.ParseRequestURI` and
reads `u.Scheme` and `u.Host`.  The definitions below embed Go 1.23's
`parse(rawURL, viaRequest=true)` with its helpers `getScheme`,
`parseAuthority`, `parseHost`, `unescape`, `shouldEscape`,
`validOptionalPort`, `validUserinfo` and `stringContainsCTLByte`, at the
level of Unicode characters.  Notes on byte/char faithfulness:
* `strings.ToLower` is applied only to the scheme, whose characters
  `getScheme` restricts to ASCII, so ASCII lowercasing is exact;
* all byte-level classifications used (CTL bytes, hex digits, digits,
  host/userinfo character classes) treat every byte of a multi-byte UTF-8
  character as "other/non-ASCII", which is what the character-level test
  does too;
* a `%XX`-decoded byte is represented as the character with that code
  point; only emptiness and error behaviour of the host are consumed. -/

def containsCTL (l : List Char) : Bool :=
  l.any fun c => c.toNat < 32 || c.toNat == 127

/-- `getScheme`: on `scheme:rest` returns the raw (un-lowercased) scheme and
the remainder; `.error` is Go's "missing protocol scheme" (colon first);
otherwise scheme `[]` with the whole input as remainder. -/
def getSchemeAux (raw : List Char) : List Char → List Char →
    Except Unit (List Char × List Char)
  | _, [] => .ok ([], raw)
  | acc, c :: cs =>
    if ('a' ≤ c ∧ c ≤ 'z') ∨ ('A' ≤ c ∧ c ≤ 'Z') then
      getSchemeAux raw (c :: acc) cs
    else if ('0' ≤ c ∧ c ≤ '9') ∨ c = '+' ∨ c = '-' ∨ c = '.' then
      if acc.isEmpty then .ok ([], raw) else getSchemeAux raw (c :: acc) cs
    else if c = ':' then
      if acc.isEmpty then .error () else .ok (acc.reverse, cs)
    else .ok ([], raw)

def getScheme (raw : List Char) : Except Unit (List Char × List Char) :=
  getSchemeAux raw [] raw

/-- ASCII lowercasing; agrees with Go `strings.ToLower` on scheme strings
(ASCII-only by `getScheme`). -/
def asciiToLower (c : Char) : Char :=
  if 'A' ≤ c ∧ c ≤ 'Z' then Char.ofNat (c.toNat + 32) else c

/-- `strings.Cut(l, c)`: (before, after, found). -/
def cutChar (c : Char) : List Char → List Char × List Char × Bool
  | [] => ([], [], false)
  | x :: xs =>
    if x == c then ([], xs, true)
    else
      let r := cutChar c xs
      (x :: r.1, r.2.1, r.2.2)

/-- `strings.LastIndex(l, c)` for a single character. -/
def lastIndexOf (c : Char) : List Char → Option Nat
  | [] => none
  | x :: xs =>
    match lastIndexOf c xs with
    | some i => some (i + 1)
    | none => if x == c then some 0 else none

/-- `strings.Index(l, pat)` for a pattern. -/
def findSubIdx (pat : List Char) : List Char → Option Nat
  | [] => if pat.isEmpty then some 0 else none
  | x :: xs =>
    if pat.isPrefixOf (x :: xs) then some 0
    else (findSubIdx pat xs).map (· + 1)

/-- `shouldEscape(v, encodeHost)` on a byte value: false (allowed raw) for
alphanumerics, the sub-delims and host extras `!$&()*+,;=:[]<>"` and the
apostrophe (39), and the unreserved marks `-_.~`. -/
def shouldEscapeHostByte (v : Nat) : Bool :=
  if (97 ≤ v ∧ v ≤ 122) ∨ (65 ≤ v ∧ v ≤ 90) ∨ (48 ≤ v ∧ v ≤ 57) then false
  else if v ∈ [33, 36, 38, 39, 40, 41, 42, 43, 44, 59, 61, 58, 91, 93,
               60, 62, 34] then false
  else if v ∈ [45, 95, 46, 126] then false
  else true

inductive EscMode where
  | host
  | zone
  | userPassword
  | path
deriving DecidableEq

def isHexChar (c : Char) : Bool :=
  ('0' ≤ c && c ≤ '9') || ('a' ≤ c && c ≤ 'f') || ('A' ≤ c && c ≤ 'F')

def unhex (c : Char) : Nat :=
  if '0' ≤ c ∧ c ≤ '9' then c.toNat - 48
  else if 'a' ≤ c ∧ c ≤ 'f' then c.toNat - 97 + 10
  else if 'A' ≤ c ∧ c ≤ 'F' then c.toNat - 65 + 10
  else 0

/-- `unescape(s, mode)`: validates `%`-escapes (and, in host/zone modes, the
raw characters) and decodes `%XX` to the byte's character. -/
def unescape (mode : EscMode) : List Char → Except Unit (List Char)
  | [] => .ok []
  | c :: rest =>
    if c == '%' then
      match rest with
      | a :: b :: rest' =>
        if ¬(isHexChar a ∧ isHexChar b) then .error ()
        else if mode = .host ∧ unhex a < 8 ∧ ¬(a = '2' ∧ b = '5') then
          .error ()
        else if mode = .zone ∧ ¬(a = '2' ∧ b = '5') ∧
                unhex a * 16 + unhex b ≠ 32 ∧
                shouldEscapeHostByte (unhex a * 16 + unhex b) then .error ()
        else
          match unescape mode rest' with
          | .error e => .error e
          | .ok out => .ok (Char.ofNat (unhex a * 16 + unhex b) :: out)
      | _ => .error ()
    else
      if (mode = .host ∨ mode = .zone) ∧ c.toNat < 128 ∧
          shouldEscapeHostByte c.toNat then .error ()
      else
        match unescape mode rest with
        | .error e => .error e
        | .ok out => .ok (c :: out)

/-- `validOptionalPort`. -/
def validOptionalPort : List Char → Bool
  | [] => true
  | c :: rest => c == ':' && rest.all fun b => '0' ≤ b && b ≤ '9'

/-- `validUserinfo`: alphanumerics plus `-._:~!$&()*+,;=%@` and the
apostrophe (39). -/
def validUserinfoChar (c : Char) : Bool :=
  ('A' ≤ c && c ≤ 'Z') || ('a' ≤ c && c ≤ 'z') || ('0' ≤ c && c ≤ '9') ||
  c.toNat ∈ [45, 46, 95, 58, 126, 33, 36, 38, 39, 40, 41, 42, 43, 44, 59,
             61, 37, 64]

def validUserinfo (l : List Char) : Bool := l.all validUserinfoChar

def startsWith1 (c : Char) : List Char → Bool
  | x :: _ => x == c
  | [] => false

def startsWith2 (c₁ c₂ : Char) : List Char → Bool
  | x :: y :: _ => x == c₁ && y == c₂
  | _ => false

def startsWith3 (c₁ c₂ c₃ : Char) : List Char → Bool
  | x :: y :: z :: _ => x == c₁ && y == c₂ && z == c₃
  | _ => false

/-- `parseHost`. -/
def parseHost (host : List Char) : Except Unit (List Char) :=
  if startsWith1 '[' host then
    match lastIndexOf ']' host with
    | none => .error ()
    | some i =>
      let colonPort := host.drop (i + 1)
      if ¬ validOptionalPort colonPort then .error ()
      else
        match findSubIdx ['%', '2', '5'] (host.take i) with
        | some zone =>
          match unescape .host (host.take zone) with
          | .error e => .error e
          | .ok h1 =>
            match unescape .zone ((host.take i).drop zone) with
            | .error e => .error e
            | .ok h2 =>
              match unescape .host (host.drop i) with
              | .error e => .error e
              | .ok h3 => .ok (h1 ++ h2 ++ h3)
        | none => unescape .host host
  else
    match lastIndexOf ':' host with
    | some i =>
      if ¬ validOptionalPort (host.drop i) then .error ()
      else unescape .host host
    | none => unescape .host host

/-- `parseAuthority`: returns the host; the userinfo is parsed only for its
error effects (`User`/`UserPassword` values are not consumed by the core). -/
def parseAuthority (authority : List Char) : Except Unit (List Char) :=
  match lastIndexOf '@' authority with
  | none => parseHost authority
  | some i =>
    match parseHost (authority.drop (i + 1)) with
    | .error e => .error e
    | .ok host =>
      let userinfo := authority.take i
      if ¬ validUserinfo userinfo then .error ()
      else if userinfo.any (· == ':') then
        let cut := cutChar ':' userinfo
        match unescape .userPassword cut.1 with
        | .error e => .error e
        | .ok _ =>
          match unescape .userPassword cut.2.1 with
          | .error e => .error e
          | .ok _ => .ok host
      else
        match unescape .userPassword userinfo with
        | .error e => .error e
        | .ok _ => .ok host

structure GoURL where
  scheme : String
  opq : String
  host : String
  path : String
  rawQuery : String
  forceQuery : Bool
  omitHost : Bool
deriving DecidableEq

def emptyURL : GoURL :=
  { scheme := "", opq := "", host := "", path := "", rawQuery := "",
    forceQuery := false, omitHost := false }

/-- The tail of `parse` after the scheme has been split off and lowercased:
query split already done, `rest`/`rawQuery`/`forceQuery` in hand. -/
def parseAfterScheme (scheme : String) (rest rawQuery : List Char)
    (forceQuery viaRequest : Bool) : Except Unit GoURL :=
  let base : GoURL :=
    { emptyURL with scheme := scheme, rawQuery := String.mk rawQuery,
                    forceQuery := forceQuery }
  if startsWith1 '/' rest = false ∧ scheme ≠ "" then
    .ok { base with opq := String.mk rest }
  else if startsWith1 '/' rest = false ∧ viaRequest then .error ()
  else if startsWith1 '/' rest = false ∧
      (cutChar '/' rest).1.any (· == ':') then .error ()
  else if (scheme ≠ "" ∨ (viaRequest = false ∧ startsWith3 '/' '/' '/' rest = false)) ∧
      startsWith2 '/' '/' rest then
    let authority0 := rest.drop 2
    let cut :=
      match authority0.findIdx? (· == '/') with
      | some i => (authority0.take i, authority0.drop i)
      | none => (authority0, ([] : List Char))
    match parseAuthority cut.1 with
    | .error _ => .error ()
    | .ok host =>
      match unescape .path cut.2 with
      | .error _ => .error ()
      | .ok p => .ok { base with host := String.mk host, path := String.mk p }
  else
    let omitH := decide (scheme ≠ "") && startsWith1 '/' rest
    match unescape .path rest with
    | .error _ => .error ()
    | .ok p => .ok { base with omitHost := omitH, path := String.mk p }

/-- Go 1.23 `net/url.parse(rawURL, viaRequest)`. -/
def parse (rawURL : List Char) (viaRequest : Bool) : Except Unit GoURL :=
  if containsCTL rawURL then .error ()
  else if rawURL = [] ∧ viaRequest then .error ()
  else if rawURL = ['*'] then .ok { emptyURL with path := "*" }
  else
    match getScheme rawURL with
    | .error _ => .error ()
    | .ok (schemeRaw, rest0) =>
      let scheme := String.mk (schemeRaw.map asciiToLower)
      if rest0.getLast? = some '?' ∧ rest0.dropLast.all (fun c => ¬(c == '?')) then
        parseAfterScheme scheme rest0.dropLast [] true viaRequest
      else
        let cut := cutChar '?' rest0
        parseAfterScheme scheme cut.1 cut.2.1 false viaRequest

/-- `url.ParseRequestURI`. -/
def ParseRequestURI (s : String) : Except Unit GoURL := parse s.data true

/-- `shortenerSvc.ValidateURL` (shortener_service.go:75-81). -/
def ValidateURL (inputURL : String) : Bool :=
  match ParseRequestURI inputURL with
  | .error _ => false
  | .ok u => (u.scheme == "http" || u.scheme == "https") && u.host != ""

/-! ## Repository layer (`internal/repositories/shortener_repo.go`)

Errors visible to the service: `ErrNotFound` (tested with `errors.Is`),
the SQLite UNIQUE-constraint violation on `short_code`, and other backend
errors (`dbError`). -/

inductive RepoErr where
  | notFound
  | uniqueConstraint
  | dbError (code : Nat)
deriving DecidableEq

/-- The `urls` table as a list of `(short_code, long_url)` rows in rowid
order (`id`/`created_at` are never read by the core). -/
abbrev Store := List (String × String)

/-- Schema invariant from `InitSchema` (shortener_repo.go:43-61):
`short_code TEXT NOT NULL UNIQUE`. -/
def uniqueCodes (st : Store) : Prop := (st.map Prod.fst).Nodup

instance : DecidablePred uniqueCodes := fun st =>
  inferInstanceAs (Decidable (st.map Prod.fst).Nodup)

/-- `SQLiteShortenerRepo.FindByShortCode` (shortener_repo.go:77-87):
`SELECT long_url … WHERE short_code = ?`; `sql.ErrNoRows ↦ ErrNotFound`. -/
def sqliteFindByShortCode (shortCode : String) (st : Store) :
    Except RepoErr String × Store :=
  match st.find? (fun r => r.1 == shortCode) with
  | some r => (.ok r.2, st)
  | none => (.error .notFound, st)

/-- `SQLiteShortenerRepo.FindByLongURL` (shortener_repo.go:89-99):
`SELECT short_code … WHERE long_url = ? LIMIT 1`; no row is NOT an error —
it returns `("", nil)`. -/
def sqliteFindByLongURL (longURL : String) (st : Store) :
    Except RepoErr String × Store :=
  match st.find? (fun r => r.2 == longURL) with
  | some r => (.ok r.1, st)
  | none => (.ok "", st)

/-- `SQLiteShortenerRepo.SaveMapping` (shortener_repo.go:63-75):
`INSERT INTO urls(short_code, long_url, created_at)`; the UNIQUE constraint
on `short_code` rejects a duplicate with a constraint-violation error
(which is not `ErrNotFound`).  Returns `LastInsertId`. -/
def sqliteSaveMapping (shortCode longURL : String) (st : Store) :
    Except RepoErr Int × Store :=
  if st.any (fun r => r.1 == shortCode) then (.error .uniqueConstraint, st)
  else (.ok (st.length + 1), st ++ [(shortCode, longURL)])

/-- `SQLiteShortenerRepo.UpdateLongURL` (shortener_repo.go:101-122):
`UPDATE urls SET long_url = ? WHERE short_code = ?`; zero rows affected
`↦ ErrNotFound`. -/
def sqliteUpdateLongURL (shortCode newLongURL : String) (st : Store) :
    Except RepoErr Unit × Store :=
  if st.any (fun r => r.1 == shortCode) then
    (.ok (), st.map fun r => if r.1 == shortCode then (r.1, newLongURL) else r)
  else (.error .notFound, st)

/-- `SQLiteShortenerRepo.DeleteMapping` (shortener_repo.go:124-145):
`DELETE FROM urls WHERE short_code = ?`; zero rows affected `↦ ErrNotFound`. -/
def sqliteDeleteMapping (shortCode : String) (st : Store) :
    Except RepoErr Unit × Store :=
  if st.any (fun r => r.1 == shortCode) then
    (.ok (), st.filter fun r => ¬(r.1 == shortCode))
  else (.error .notFound, st)

/-- The `repositories.ShortenerRepository` interface consumed by the
service (the service holds `repo repositories.ShortenerRepository`, so it
is defined against the interface, not the SQLite implementation). -/
structure RepoOps (σ : Type) where
  findByLongURL : String → σ → Except RepoErr String × σ
  findByShortCode : String → σ → Except RepoErr String × σ
  saveMapping : String → String → σ → Except RepoErr Int × σ
  updateLongURL : String → String → σ → Except RepoErr Unit × σ
  deleteMapping : String → σ → Except RepoErr Unit × σ

/-- The SQLite-backed instance. -/
def sqliteRepo : RepoOps Store where
  findByLongURL := sqliteFindByLongURL
  findByShortCode := sqliteFindByShortCode
  saveMapping := sqliteSaveMapping
  updateLongURL := sqliteUpdateLongURL
  deleteMapping := sqliteDeleteMapping

/-! ## Service layer (`internal/services/shortener_service.go`) -/

/-- `shortCodeLength = 7`, `maxGenerationRetries = 5`
(shortener_service.go:13-16). -/
def shortCodeLength : Int := 7

def maxGenerationRetries : Nat := 5

/-- The distinguishable error returns of the service.  Each constructor is
one `return` statement's error: `invalidURL` = "invalid URL format
provided"; `checkExistingFailed` = "failed to check for existing URL: %w";
`generateFailed` = "service failed to generate random string: %w";
`saveFailed` = "service failed to save mapping: %w"; `uniquenessCheckFailed`
= "service failed to check code uniqueness: %w"; `exhaustedRetries` =
"service could not generate unique short code after %d retries";
`invalidNewURL` = "invalid new URL format provided"; `errNotFound` = the
repository's `ErrNotFound` passed through unchanged; `updateFailed` /
`deleteFailed` = the corresponding wraps. -/
inductive SvcErr where
  | invalidURL
  | checkExistingFailed (e : RepoErr)
  | generateFailed
  | saveFailed (e : RepoErr)
  | uniquenessCheckFailed (e : RepoErr)
  | exhaustedRetries
  | invalidNewURL
  | errNotFound
  | updateFailed (e : RepoErr)
  | deleteFailed (e : RepoErr)
deriving DecidableEq

inductive SvcResult where
  | ok (code : String)
  | err (e : SvcErr)
  | panicked
deriving DecidableEq

/-- The retry loop of `CreateShortURL` (shortener_service.go:48-69), with
`fuel` = remaining iterations of `for i := 0; i < maxGenerationRetries;
i++`.  Running out of fuel is the fall-through to line 71-72
(`exhaustedRetries`). -/
def createLoop {σ : Type} (ops : RepoOps σ) (longURL : String) :
    Nat → ByteStream → σ → SvcResult × ByteStream × σ
  | 0, g, st => (.err .exhaustedRetries, g, st)
  | fuel + 1, g, st =>
    match GenerateRandomString shortCodeLength g with
    | .entropyErr => (.err .generateFailed, g, st)
    | .panicMakeNegLen => (.panicked, g, st)
    | .panicSliceNeg => (.panicked, g, st)
    | .ok code g' =>
      match ops.findByShortCode code st with
      | (.error .notFound, st1) =>
        match ops.saveMapping code longURL st1 with
        | (.error e, st2) => (.err (.saveFailed e), g', st2)
        | (.ok _, st2) => (.ok code, g', st2)
      | (.error e, st1) => (.err (.uniquenessCheckFailed e), g', st1)
      | (.ok _, st1) => createLoop ops longURL fuel g' st1

/-- `shortenerSvc.CreateShortURL` (shortener_service.go:33-73).  On the
`FindByLongURL` error path the returned code is `""`, so an `ErrNotFound`
(never produced by the SQLite implementation but allowed by the interface)
falls through to the generation loop exactly as in the Go code. -/
def CreateShortURL {σ : Type} (ops : RepoOps σ) (longURL : String)
    (g : ByteStream) (st : σ) : SvcResult × ByteStream × σ :=
  if ValidateURL longURL = false then (.err .invalidURL, g, st)
  else
    match ops.findByLongURL longURL st with
    | (.error .notFound, st1) => createLoop ops longURL maxGenerationRetries g st1
    | (.error e, st1) => (.err (.checkExistingFailed e), g, st1)
    | (.ok existingCode, st1) =>
      if existingCode ≠ "" then (.ok existingCode, g, st1)
      else createLoop ops longURL maxGenerationRetries g st1

/-- `shortenerSvc.UpdateLongURL` (shortener_service.go:83-100). -/
def UpdateLongURLSvc {σ : Type} (ops : RepoOps σ) (shortCode newLongURL : String)
    (st : σ) : Except SvcErr Unit × σ :=
  if ValidateURL newLongURL = false then (.error .invalidNewURL, st)
  else
    match ops.updateLongURL shortCode newLongURL st with
    | (.error .notFound, st1) => (.error .errNotFound, st1)
    | (.error e, st1) => (.error (.updateFailed e), st1)
    | (.ok _, st1) => (.ok (), st1)

/-- `shortenerSvc.DeleteMapping` (shortener_service.go:102-115). -/
def DeleteMappingSvc {σ : Type} (ops : RepoOps σ) (shortCode : String)
    (st : σ) : Except SvcErr Unit × σ :=
  match ops.deleteMapping shortCode st with
  | (.error .notFound, st1) => (.error .errNotFound, st1)
  | (.error e, st1) => (.error (.deleteFailed e), st1)
  | (.ok _, st1) => (.ok (), st1)

/-! ## Auxiliary definitions for stating the claims -/

/-- Membership in the URL-safe base64 alphabet
(`A-Z`, `a-z`, `0-9`, `-`, `_`). -/
def isB64urlChar (c : Char) : Bool :=
  ('A' ≤ c && c ≤ 'Z') || ('a' ≤ c && c ≤ 'z') || ('0' ≤ c && c ≤ '9') ||
  c == '-' || c == '_'

/-- The spec's byte-count formula for the generator:
`ceil(length*6/8) + 1` (stated for positive lengths). -/
def specBytesDrawn (length : Nat) : Nat := (length * 6 + 7) / 8 + 1

/-- The validity predicate exactly as claim C8 states it: the input parses
as an absolute request URI, the raw scheme as written in the input is the
lowercase string `http` or `https` (case-sensitive comparison), and the
host is non-empty. -/
def specValidURLStrict (s : String) : Bool :=
  match ParseRequestURI s with
  | .error _ => false
  | .ok u =>
    match getScheme s.data with
    | .error _ => false
    | .ok (raw, _) =>
      (raw == "http".data || raw == "https".data) && u.host != ""

/-- The validity predicate with the raw scheme compared after ASCII
lowercasing — what Go's parser actually implements, since `parse`
normalizes the scheme with `strings.ToLower` before `ValidateURL`
compares it. -/
def specValidURLLower (s : String) : Bool :=
  match ParseRequestURI s with
  | .error _ => false
  | .ok u =>
    match getScheme s.data with
    | .error _ => false
    | .ok (raw, _) =>
      (raw.map asciiToLower == "http".data ||
       raw.map asciiToLower == "https".data) && u.host != ""

/-- A store behaviour allowed by the `ShortenerRepository` interface in
which the forward probe reports no mapping but the insert is rejected
with error `e` — the §5/§9 probe-then-insert race, where a concurrent
writer claims the candidate code between steps 3b and 3c.  The state
counts `SaveMapping` calls. -/
def raceRepo (e : RepoErr) : RepoOps Nat where
  findByLongURL := fun _ st => (.ok "", st)
  findByShortCode := fun _ st => (.error .notFound, st)
  saveMapping := fun _ _ st => (.error e, st + 1)
  updateLongURL := fun _ _ st => (.error .notFound, st)
  deleteMapping := fun _ st => (.error .notFound, st)

/-- The collision-simulation store of §8: no reverse mapping exists, yet
the forward probe reports every candidate as already present.  The state
counts `(FindByShortCode, SaveMapping)` calls. -/
def collideRepo : RepoOps (Nat × Nat) where
  findByLongURL := fun _ st => (.ok "", st)
  findByShortCode := fun _ st => (.ok "http://existing.example", (st.1 + 1, st.2))
  saveMapping := fun _ _ st => (.ok 0, (st.1, st.2 + 1))
  updateLongURL := fun _ _ st => (.error .notFound, st)
  deleteMapping := fun _ st => (.error .notFound, st)

/-! ## Generator lemmas -/

theorem b64char_isB64url : ∀ n, n < 64 → isB64urlChar (b64char n) = true := by
  decide

theorem rawURLEncode_all_b64 :
    ∀ bs : List Nat, (∀ b ∈ bs, b < 256) →
      ∀ c ∈ rawURLEncode bs, isB64urlChar c = true
  | [], _ => by simp [rawURLEncode]
  | [b0], h => by
    have hb0 : b0 < 256 := h b0 (by simp)
    simp only [rawURLEncode, List.mem_cons, List.not_mem_nil, or_false]
    rintro c (rfl | rfl) <;> exact b64char_isB64url _ (by omega)
  | [b0, b1], h => by
    have hb0 : b0 < 256 := h b0 (by simp)
    have hb1 : b1 < 256 := h b1 (by simp)
    simp only [rawURLEncode, List.mem_cons, List.not_mem_nil, or_false]
    rintro c (rfl | rfl | rfl) <;> exact b64char_isB64url _ (by omega)
  | b0 :: b1 :: b2 :: rest, h => by
    have hb0 : b0 < 256 := h b0 (by simp)
    have hb1 : b1 < 256 := h b1 (by simp)
    have hb2 : b2 < 256 := h b2 (by simp)
    have ih := rawURLEncode_all_b64 rest (fun b hb => h b (by simp [hb]))
    simp only [rawURLEncode, List.mem_cons]
    rintro c (rfl | rfl | rfl | rfl | hc)
    · exact b64char_isB64url _ (by omega)
    · exact b64char_isB64url _ (by omega)
    · exact b64char_isB64url _ (by omega)
    · exact b64char_isB64url _ (by omega)
    · exact ih c hc

theorem rawURLEncode_length_ge :
    ∀ bs : List Nat, 4 * bs.length ≤ 3 * (rawURLEncode bs).length
  | [] => by simp [rawURLEncode]
  | [_] => by simp [rawURLEncode]
  | [_, _] => by simp [rawURLEncode]
  | _ :: _ :: _ :: rest => by
    have ih := rawURLEncode_length_ge rest
    simp only [rawURLEncode, List.length_cons]
    omega

theorem read_shape {g : ByteStream} {n : Nat} {bs : List Nat} {g' : ByteStream}
    (h : g.read n = some (bs, g')) :
    bs = (List.range n).map (fun i => g.bytes (g.pos + i) % 256) ∧
    g' = { g with pos := g.pos + n } := by
  unfold ByteStream.read at h
  split at h
  · rename_i hn
    subst hn
    simp only [Option.some.injEq, Prod.mk.injEq] at h
    exact ⟨h.1.symm, h.2.symm⟩
  · cases havail : g.avail with
    | none =>
      simp only [havail, Option.some.injEq, Prod.mk.injEq] at h
      exact ⟨h.1.symm, h.2.symm⟩
    | some a =>
      simp only [havail] at h
      split at h
      · simp only [Option.some.injEq, Prod.mk.injEq] at h
        exact ⟨h.1.symm, h.2.symm⟩
      · exact absurd h (by simp)

theorem read_avail_none (g : ByteStream) (n : Nat) (h : g.avail = none) :
    g.read n =
      some ((List.range n).map (fun i => g.bytes (g.pos + i) % 256),
            { g with pos := g.pos + n }) := by
  unfold ByteStream.read
  cases n with
  | zero => simp
  | succ m => simp [h]

/-- On a never-failing entropy source, `GenerateRandomString` at a
non-negative length `L` succeeds, draws exactly `L*6/8 + 1` bytes
(floor division — the Go expression `(length*6)/8 + 1`), and returns
exactly `L` characters of the URL-safe alphabet. -/
theorem GenerateRandomString_nat (L : Nat) (g : ByteStream)
    (h : g.avail = none) :
    ∃ s : String,
      GenerateRandomString (L : Int) g =
        .ok s { g with pos := g.pos + (L * 6 / 8 + 1) } ∧
      s.length = L ∧ s.data.all isB64urlChar = true := by
  have hnum : Int.tdiv ((L : Int) * 6) 8 + 1 = ((L * 6 / 8 + 1 : Nat) : Int) := by
    have : ((L : Int) * 6) = ((L * 6 : Nat) : Int) := by push_cast; ring
    rw [this]
    rfl
  set bs : List Nat :=
    (List.range (L * 6 / 8 + 1)).map (fun i => g.bytes (g.pos + i) % 256) with hbs
  have hbs256 : ∀ b ∈ bs, b < 256 := by
    intro b hb
    rw [hbs] at hb
    simp only [List.mem_map] at hb
    obtain ⟨i, _, rfl⟩ := hb
    exact Nat.mod_lt _ (by omega)
  have hlen_bs : bs.length = L * 6 / 8 + 1 := by simp [hbs]
  have henc : L < (rawURLEncode bs).length := by
    have hge := rawURLEncode_length_ge bs
    rw [hlen_bs] at hge
    have hdm := Nat.div_add_mod (L * 6) 8
    have hmod : L * 6 % 8 < 8 := Nat.mod_lt _ (by omega)
    omega
  refine ⟨String.mk ((rawURLEncode bs).take L), ?_, ?_, ?_⟩
  · unfold GenerateRandomString
    rw [hnum]
    have hneg : ¬ (((L * 6 / 8 + 1 : Nat) : Int) < 0) := by omega
    rw [if_neg hneg, Int.toNat_natCast, read_avail_none g _ h, ← hbs]
    have hgt : ((rawURLEncode bs).length : Int) > (L : Int) := by
      exact_mod_cast henc
    dsimp only
    rw [if_pos hgt, if_neg (by omega), Int.toNat_natCast]
  · show ((rawURLEncode bs).take L).length = L
    rw [List.length_take]
    omega
  · show ((rawURLEncode bs).take L).all isB64urlChar = true
    rw [List.all_eq_true]
    intro c hc
    exact rawURLEncode_all_b64 bs hbs256 c (List.take_subset _ _ hc)

/-- Success shape of `GenerateRandomString` at the service's fixed length 7,
for an arbitrary entropy source: the code has exactly 7 characters of the
URL-safe alphabet, and exactly 6 bytes were drawn. -/
theorem gen7_shape {g : ByteStream} {s : String} {g' : ByteStream}
    (h : GenerateRandomString shortCodeLength g = .ok s g') :
    s.length = 7 ∧ s.data.all isB64urlChar = true ∧
      g' = { g with pos := g.pos + 6 } := by
  unfold GenerateRandomString shortCodeLength at h
  rw [show Int.tdiv ((7 : Int) * 6) 8 + 1 = ((6 : Nat) : Int) from rfl] at h
  rw [if_neg (by norm_num)] at h
  rw [Int.toNat_natCast] at h
  cases hread : g.read 6 with
  | none => rw [hread] at h; exact absurd h (by simp)
  | some p =>
    obtain ⟨bs, g₁⟩ := p
    obtain ⟨hbs, hg₁⟩ := read_shape hread
    rw [hread] at h
    have hbs256 : ∀ b ∈ bs, b < 256 := by
      intro b hb
      rw [hbs] at hb
      simp only [List.mem_map] at hb
      obtain ⟨i, _, rfl⟩ := hb
      exact Nat.mod_lt _ (by omega)
    have hlen_bs : bs.length = 6 := by rw [hbs]; simp
    have henc : 7 < (rawURLEncode bs).length := by
      have hge := rawURLEncode_length_ge bs
      rw [hlen_bs] at hge
      omega
    dsimp only at h
    rw [if_pos (by exact_mod_cast henc), if_neg (by norm_num)] at h
    obtain ⟨hs, hg'⟩ : String.mk ((rawURLEncode bs).take (Int.toNat 7)) = s ∧ g₁ = g' := by
      cases h; exact ⟨rfl, rfl⟩
    subst hs
    refine ⟨?_, ?_, by rw [← hg', hg₁]⟩
    · show ((rawURLEncode bs).take (Int.toNat 7)).length = 7
      rw [List.length_take]
      omega
    · show ((rawURLEncode bs).take (Int.toNat 7)).all isB64urlChar = true
      rw [List.all_eq_true]
      intro c hc
      exact rawURLEncode_all_b64 bs hbs256 c (List.take_subset _ _ hc)

/-! ## Claims C5 and C10: the generator's byte budget and its domain -/

/-- **C5, counterexample.**  The claim says the generator draws
`ceil(length*6/8)+1` bytes.  At length 1 the code draws
`(1*6)/8 + 1 = 1` byte (the stream position advances by 1), while the
claim's formula `specBytesDrawn 1` gives 2 — so the claim is false at
length 1. -/
theorem c5_counterexample_ceil_vs_floor :
    (match GenerateRandomString 1 ⟨fun _ => 0, 0, none⟩ with
     | .ok _ g' => g'.pos
     | _ => 0) = 1 ∧ specBytesDrawn 1 = 2 ∧ (1 : Nat) ≠ 2 :=
  ⟨rfl, rfl, by decide⟩

/-- **C5, amended.**  For every positive length `L`, the generator draws
exactly `floor(L*6/8) + 1` random bytes from the entropy source (the Go
expression `(length*6)/8 + 1` with truncating integer division — not
`ceil(L*6/8)+1`), base64url-encodes them without padding, and truncates
the encoding to exactly `L` characters, so the returned string always has
exactly `L` characters (all in the URL-safe alphabet). -/
theorem c5_generator_draws_floor_bytes (L : Nat) (_hL : 0 < L)
    (g : ByteStream) (h : g.avail = none) :
    ∃ s : String,
      GenerateRandomString (L : Int) g =
        .ok s { g with pos := g.pos + (L * 6 / 8 + 1) } ∧
      s.length = L ∧ s.data.all isB64urlChar = true :=
  GenerateRandomString_nat L g h

/-- **C5, witness** for `c5_generator_draws_floor_bytes` at `L = 7` on the
all-zero stream: 6 bytes are drawn and the 7-character string `"AAAAAAA"`
is returned. -/
theorem c5_generator_draws_floor_bytes_witness :
    (0 : Nat) < 7 ∧
    ∃ s : String,
      GenerateRandomString ((7 : Nat) : Int) ⟨fun _ => 0, 0, none⟩ =
        .ok s ⟨fun _ => 0, 0 + (7 * 6 / 8 + 1), none⟩ ∧
      s.length = 7 ∧ s.data.all isB64urlChar = true :=
  ⟨by decide,
   c5_generator_draws_floor_bytes 7 (by decide) ⟨fun _ => 0, 0, none⟩ rfl⟩

/-- **C10, counterexample.**  The claim attributes the panic at every
negative length to the truncating slice `randomString[:length]`.  At
length `-3`, `numBytes = (-3*6)/8 + 1 = -1`, so `make([]byte, numBytes)`
panics first (`makeslice: len out of range`); execution never reaches the
slice expression. -/
theorem c10_counterexample_make_panics_first :
    GenerateRandomString (-3) ⟨fun _ => 0, 0, none⟩ = .panicMakeNegLen ∧
    GenerateRandomString (-3) ⟨fun _ => 0, 0, none⟩ ≠ .panicSliceNeg :=
  ⟨rfl, fun hcontra => GenOut.noConfusion hcontra⟩

/-- **C10, amended.**  `GenerateRandomString` checks no precondition on
`length`: at length 0 it returns the empty string with no error (drawing
one byte); at lengths `-1` and `-2` the truncating slice expression
`randomString[:length]` panics; at every length `≤ -3` the computed byte
count is negative and `make([]byte, numBytes)` panics before the slice is
reached.  In particular it panics at every negative length. -/
theorem c10_nonpositive_length_behaviour :
    (∀ g : ByteStream, g.avail = none →
        GenerateRandomString 0 g = .ok "" { g with pos := g.pos + 1 }) ∧
    (∀ g : ByteStream, g.avail = none →
        GenerateRandomString (-1) g = .panicSliceNeg) ∧
    (∀ g : ByteStream, GenerateRandomString (-2) g = .panicSliceNeg) ∧
    (∀ (L : Int) (g : ByteStream), L ≤ -3 →
        GenerateRandomString L g = .panicMakeNegLen) := by
  refine ⟨?_, ?_, ?_, ?_⟩
  · intro g h
    obtain ⟨s, heq, hlen, -⟩ := GenerateRandomString_nat 0 g h
    have hs : s = "" := by
      cases s with
      | mk data =>
        cases data with
        | nil => rfl
        | cons c cs => simp [String.length] at hlen
    rw [hs] at heq
    exact heq
  · intro g h
    unfold GenerateRandomString
    rw [show Int.tdiv ((-1 : Int) * 6) 8 + 1 = (1 : Int) from by decide]
    rw [if_neg (by decide), show (1 : Int).toNat = 1 from rfl,
        read_avail_none g 1 h]
    dsimp only
    rw [if_pos (by simp [rawURLEncode]), if_pos (by decide)]
  · intro g
    unfold GenerateRandomString
    rw [show Int.tdiv ((-2 : Int) * 6) 8 + 1 = (0 : Int) from by decide]
    rw [if_neg (by decide), show (0 : Int).toNat = 0 from rfl]
    rw [show g.read 0 = some ([], g) from rfl]
    dsimp only
    rw [if_pos (by simp [rawURLEncode]), if_pos (by decide)]
  · intro L g hL
    unfold GenerateRandomString
    have hneg : Int.tdiv (L * 6) 8 + 1 < 0 := by
      have hLn : L = -(((-L).toNat : Nat) : Int) := by omega
      have h3 : 3 ≤ (-L).toNat := by omega
      rw [hLn, show (-(((-L).toNat : Nat) : Int)) * 6 =
            -(((-L).toNat * 6 : Nat) : Int) from by push_cast; ring,
          Int.neg_tdiv,
          show Int.tdiv (((-L).toNat * 6 : Nat) : Int) 8 =
            (((-L).toNat * 6 / 8 : Nat) : Int) from rfl]
      have : 2 ≤ (-L).toNat * 6 / 8 := by omega
      omega
    rw [if_pos hneg]

/-! ## Store and service lemmas -/

theorem find?_long_eq_none {st : Store} {U : String}
    (h : ∀ r ∈ st, r.2 ≠ U) : st.find? (fun r => r.2 == U) = none :=
  List.find?_eq_none.mpr fun r hr => by simp [h r hr]

/-- With unique short codes, the forward lookup of a stored row's code
finds exactly that row. -/
theorem find?_fst_of_nodup {st : Store} {r : String × String}
    (hu : uniqueCodes st) (hr : r ∈ st) :
    st.find? (fun x => x.1 == r.1) = some r := by
  induction st with
  | nil => cases hr
  | cons x tl ih =>
    rw [uniqueCodes, List.map_cons, List.nodup_cons] at hu
    rcases List.mem_cons.mp hr with rfl | hmem
    · exact List.find?_cons_of_pos tl (by simp)
    · have hxr : ¬ (x.1 == r.1) = true := by
        intro hbeq
        refine hu.1 ?_
        rw [beq_iff_eq] at hbeq
        rw [hbeq]
        exact List.mem_map.mpr ⟨r, hmem, rfl⟩
      rw [List.find?_cons_of_neg tl hxr]
      exact ih hu.2 hmem

theorem any_eq_false_of_find?_none {st : Store} {p : String × String → Bool}
    (h : st.find? p = none) : st.any p = false := by
  rw [List.find?_eq_none] at h
  simp only [List.any_eq_false]
  exact fun r hr => h r hr

/-- Success of the retry loop over the SQLite store: the returned code was
freshly generated (7 URL-safe characters), its forward probe on the entry
state reported not-found, and the row `(C, U)` was appended. -/
theorem createLoop_ok_sqlite {U : String} :
    ∀ (fuel : Nat) (g : ByteStream) (st : Store) {C : String},
      (createLoop sqliteRepo U fuel g st).1 = .ok C →
      (createLoop sqliteRepo U fuel g st).2.2 = st ++ [(C, U)] ∧
      st.find? (fun r => r.1 == C) = none ∧
      C.length = 7 ∧ C.data.all isB64urlChar = true
  | 0, g, st, C => by
    intro h
    exact absurd h (by simp [createLoop])
  | fuel + 1, g, st, C => by
    intro h
    rw [createLoop] at h
    cases hgen : GenerateRandomString shortCodeLength g with
    | entropyErr => rw [hgen] at h; exact absurd h (by simp)
    | panicMakeNegLen => rw [hgen] at h; exact absurd h (by simp)
    | panicSliceNeg => rw [hgen] at h; exact absurd h (by simp)
    | ok code g' =>
      rw [hgen] at h
      dsimp only at h
      cases hfind : st.find? (fun r => r.1 == code) with
      | some r =>
        rw [show sqliteRepo.findByShortCode code st = (.ok r.2, st) from by
              simp [sqliteRepo, sqliteFindByShortCode, hfind]] at h
        dsimp only at h
        have hrec := createLoop_ok_sqlite fuel g' st h
        rw [createLoop, hgen]
        dsimp only
        rw [show sqliteRepo.findByShortCode code st = (.ok r.2, st) from by
              simp [sqliteRepo, sqliteFindByShortCode, hfind]]
        exact hrec
      | none =>
        rw [show sqliteRepo.findByShortCode code st = (.error .notFound, st) from by
              simp [sqliteRepo, sqliteFindByShortCode, hfind]] at h
        dsimp only at h
        have hany : st.any (fun r => r.1 == code) = false :=
          any_eq_false_of_find?_none hfind
        rw [show sqliteRepo.saveMapping code U st =
              (.ok ((st.length : Int) + 1), st ++ [(code, U)]) from by
              simp [sqliteRepo, sqliteSaveMapping, hany]] at h
        dsimp only at h
        have hC : code = C := by
          cases h
          rfl
        subst hC
        obtain ⟨hlen, hall, -⟩ := gen7_shape hgen
        refine ⟨?_, hfind, hlen, hall⟩
        rw [createLoop, hgen]
        dsimp only
        rw [show sqliteRepo.findByShortCode code st = (.error .notFound, st) from by
              simp [sqliteRepo, sqliteFindByShortCode, hfind]]
        dsimp only
        rw [show sqliteRepo.saveMapping code U st =
              (.ok ((st.length : Int) + 1), st ++ [(code, U)]) from by
              simp [sqliteRepo, sqliteSaveMapping, hany]]

/-- One-step case analysis of `CreateShortURL` over the SQLite store:
either the URL is invalid and the call fails without touching the store;
or the reverse lookup finds a row with a non-empty code and the call
dedups; or the call enters the generation loop. -/
theorem createShort_sqlite_cases (U : String) (g : ByteStream) (st : Store) :
    (ValidateURL U = false ∧
      CreateShortURL sqliteRepo U g st = (.err .invalidURL, g, st)) ∨
    (ValidateURL U = true ∧
      (∃ r, st.find? (fun x => x.2 == U) = some r ∧ r.1 ≠ "" ∧
        CreateShortURL sqliteRepo U g st = (.ok r.1, g, st))) ∨
    (ValidateURL U = true ∧
      (st.find? (fun x => x.2 == U) = none ∨
        ∃ r, st.find? (fun x => x.2 == U) = some r ∧ r.1 = "") ∧
      CreateShortURL sqliteRepo U g st =
        createLoop sqliteRepo U maxGenerationRetries g st) := by
  by_cases hv : ValidateURL U = false
  · left
    refine ⟨hv, ?_⟩
    unfold CreateShortURL
    rw [if_pos hv]
  · have hvt : ValidateURL U = true := by
      cases hb : ValidateURL U
      · exact absurd hb hv
      · rfl
    right
    cases hfindL : st.find? (fun x => x.2 == U) with
    | some r =>
      by_cases hr1 : r.1 = ""
      · right
        refine ⟨hvt, .inr ⟨r, rfl, hr1⟩, ?_⟩
        unfold CreateShortURL
        rw [if_neg hv,
            show sqliteRepo.findByLongURL U st = (.ok r.1, st) from by
              simp [sqliteRepo, sqliteFindByLongURL, hfindL]]
        dsimp only
        rw [if_neg (by simp [hr1])]
      · left
        refine ⟨hvt, r, rfl, hr1, ?_⟩
        unfold CreateShortURL
        rw [if_neg hv,
            show sqliteRepo.findByLongURL U st = (.ok r.1, st) from by
              simp [sqliteRepo, sqliteFindByLongURL, hfindL]]
        dsimp only
        rw [if_pos hr1]
    | none =>
      right
      refine ⟨hvt, .inl rfl, ?_⟩
      unfold CreateShortURL
      rw [if_neg hv,
          show sqliteRepo.findByLongURL U st = (.ok "", st) from by
            simp [sqliteRepo, sqliteFindByLongURL, hfindL]]
      dsimp only
      rw [if_neg (by simp)]

/-! ## Claims C1, C2, C3: creation over the SQLite store -/

/-- **C1.**  Round-trip of creation and lookup: from any store state with
unique short codes (the schema's UNIQUE constraint), if
`CreateShortURL U` returns code `C` — whether via the dedup short-circuit
or via a fresh insert — then `FindByShortCode C` on the resulting store
returns `U`. -/
theorem c1_create_then_find_roundtrip (st : Store) (U : String)
    (g : ByteStream) (C : String) (hu : uniqueCodes st)
    (hok : (CreateShortURL sqliteRepo U g st).1 = .ok C) :
    (sqliteFindByShortCode C (CreateShortURL sqliteRepo U g st).2.2).1 =
      .ok U := by
  rcases createShort_sqlite_cases U g st with
    ⟨-, heq⟩ | ⟨-, r, hfindL, -, heq⟩ | ⟨-, -, heq⟩
  · rw [heq] at hok
    exact absurd hok (by simp)
  · rw [heq] at hok ⊢
    have hC : r.1 = C := by
      cases hok
      rfl
    have hr2 : r.2 = U := by
      have := List.find?_some hfindL
      simpa using this
    have hmem : r ∈ st := List.mem_of_find?_eq_some hfindL
    subst hC
    rw [show (sqliteFindByShortCode r.1 st).1 = .ok r.2 from by
          simp [sqliteFindByShortCode, find?_fst_of_nodup hu hmem], hr2]
  · rw [heq] at hok ⊢
    obtain ⟨hstate, hnone, -, -⟩ := createLoop_ok_sqlite _ g st hok
    rw [hstate]
    unfold sqliteFindByShortCode
    rw [List.find?_append, hnone, Option.none_or,
        show List.find? (fun r => r.1 == C) [(C, U)] = some (C, U) from by simp]

/-- **C1, witness**: from the empty store, creating
`"http://example.com"` on the all-zero entropy stream yields code
`"AAAAAAA"`, and looking that code up returns the URL. -/
theorem c1_create_then_find_roundtrip_witness :
    uniqueCodes [] ∧
    (sqliteFindByShortCode "AAAAAAA"
        (CreateShortURL sqliteRepo "http://example.com"
          ⟨fun _ => 0, 0, none⟩ []).2.2).1 = .ok "http://example.com" :=
  ⟨by decide,
   c1_create_then_find_roundtrip [] "http://example.com"
     ⟨fun _ => 0, 0, none⟩ "AAAAAAA" (by decide) rfl⟩

/-- **C2.**  Idempotent creation: from a store with no mapping for `U`,
if the first `CreateShortURL U` returns `C`, then a
second `CreateShortURL U` (with any entropy stream `g₂`) short-circuits
via the reverse lookup: it returns the same `C`, leaves the store
unchanged, consumes no entropy (performs no generation), and the store
holds exactly one mapping for `U`. -/
theorem c2_create_idempotent (st : Store) (U : String) (g g₂ : ByteStream)
    (C : String) (hnomap : ∀ r ∈ st, r.2 ≠ U)
    (hok : (CreateShortURL sqliteRepo U g st).1 = .ok C) :
    (CreateShortURL sqliteRepo U g₂
        (CreateShortURL sqliteRepo U g st).2.2).1 = .ok C ∧
    (CreateShortURL sqliteRepo U g₂
        (CreateShortURL sqliteRepo U g st).2.2).2.1 = g₂ ∧
    (CreateShortURL sqliteRepo U g₂
        (CreateShortURL sqliteRepo U g st).2.2).2.2 =
      (CreateShortURL sqliteRepo U g st).2.2 ∧
    ((CreateShortURL sqliteRepo U g st).2.2).countP (fun r => r.2 == U) = 1 := by
  have hnone : st.find? (fun x => x.2 == U) = none := find?_long_eq_none hnomap
  rcases createShort_sqlite_cases U g st with
    ⟨-, heq⟩ | ⟨-, r, hfindL, -, -⟩ | ⟨hv, -, heq⟩
  · rw [heq] at hok
    exact absurd hok (by simp)
  · rw [hnone] at hfindL
    cases hfindL
  · rw [heq] at hok ⊢
    obtain ⟨hstate, -, hlen, -⟩ := createLoop_ok_sqlite _ g st hok
    rw [hstate]
    have hCne : C ≠ "" := by
      intro hcontra
      rw [hcontra] at hlen
      simp at hlen
    have hfind1 : (st ++ [(C, U)]).find? (fun x => x.2 == U) = some (C, U) := by
      rw [List.find?_append, hnone, Option.none_or]
      simp
    rcases createShort_sqlite_cases U g₂ (st ++ [(C, U)]) with
      ⟨hv', -⟩ | ⟨-, r', hfindL', hr'1, heq'⟩ | ⟨-, hcase, -⟩
    · rw [hv] at hv'
      cases hv'
    · rw [hfind1] at hfindL'
      have hr' : r' = (C, U) := by
        cases hfindL'
        rfl
      subst hr'
      rw [heq']
      refine ⟨rfl, rfl, rfl, ?_⟩
      rw [List.countP_append]
      have h0 : st.countP (fun r => r.2 == U) = 0 :=
        List.countP_eq_zero.mpr fun r hr => by simp [hnomap r hr]
      rw [h0]
      simp
    · rcases hcase with hnone' | ⟨r', hfindL', hr'1⟩
      · rw [hfind1] at hnone'
        cases hnone'
      · rw [hfind1] at hfindL'
        have hr' : r' = (C, U) := by
          cases hfindL'
          rfl
        subst hr'
        exact absurd hr'1 hCne

/-- **C2, witness**: creating `"http://example.com"` twice from the empty
store returns `"AAAAAAA"` both times, the second call touches neither the
store nor the entropy stream, and exactly one mapping exists. -/
theorem c2_create_idempotent_witness :
    (∀ r ∈ ([] : Store), r.2 ≠ "http://example.com") ∧
    (CreateShortURL sqliteRepo "http://example.com" ⟨fun _ => 1, 5, none⟩
        (CreateShortURL sqliteRepo "http://example.com"
          ⟨fun _ => 0, 0, none⟩ []).2.2).1 = .ok "AAAAAAA" :=
  ⟨by simp,
   (c2_create_idempotent [] "http://example.com" ⟨fun _ => 0, 0, none⟩
     ⟨fun _ => 1, 5, none⟩ "AAAAAAA" (by simp) rfl).1⟩

/-- **C3.**  For a URL `U` with no prior mapping, a successful
`CreateShortURL U` returns a string of exactly 7 characters, each in the
URL-safe base64 alphabet (`A-Z`, `a-z`, `0-9`, `-`, `_`) and in
particular never `+`, `/` or `=`.  (Validity of `U` is implied by
success: invalid URLs never reach the generator.) -/
theorem c3_code_shape (st : Store) (U : String) (g : ByteStream)
    (C : String) (hnomap : ∀ r ∈ st, r.2 ≠ U)
    (hok : (CreateShortURL sqliteRepo U g st).1 = .ok C) :
    C.length = 7 ∧ C.data.all isB64urlChar = true ∧
    ∀ c ∈ C.data, c ≠ '+' ∧ c ≠ '/' ∧ c ≠ '=' := by
  have hnone : st.find? (fun x => x.2 == U) = none := find?_long_eq_none hnomap
  rcases createShort_sqlite_cases U g st with
    ⟨-, heq⟩ | ⟨-, r, hfindL, -, -⟩ | ⟨-, -, heq⟩
  · rw [heq] at hok
    exact absurd hok (by simp)
  · rw [hnone] at hfindL
    cases hfindL
  · rw [heq] at hok
    obtain ⟨-, -, hlen, hall⟩ := createLoop_ok_sqlite _ g st hok
    refine ⟨hlen, hall, ?_⟩
    intro c hc
    have hb64 : isB64urlChar c = true := List.all_eq_true.mp hall c hc
    refine ⟨?_, ?_, ?_⟩ <;>
      · rintro rfl
        exact absurd hb64 (by decide)

/-- **C3, witness**: the code created for `"http://example.com"` from the
empty store on the all-zero stream has the required shape. -/
theorem c3_code_shape_witness :
    (∀ r ∈ ([] : Store), r.2 ≠ "http://example.com") ∧
    ("AAAAAAA".length = 7 ∧ "AAAAAAA".data.all isB64urlChar = true ∧
      ∀ c ∈ "AAAAAAA".data, c ≠ '+' ∧ c ≠ '/' ∧ c ≠ '=') :=
  ⟨by simp,
   c3_code_shape [] "http://example.com" ⟨fun _ => 0, 0, none⟩ "AAAAAAA"
     (by simp) rfl⟩

/-! ## Claim C7: invalid URLs never touch the store -/

/-- **C7.**  For every string that is not a valid absolute http(s) URL,
`CreateShortURL` fails with the invalid-URL error and performs no store
operation at all: the result holds for *every* repository implementation
`ops` over *every* state type `σ`, with the state and the entropy stream
returned unchanged — so no repository method is invoked. -/
theorem c7_invalid_url_no_store_access {σ : Type} (ops : RepoOps σ)
    (U : String) (g : ByteStream) (st : σ) (hv : ValidateURL U = false) :
    CreateShortURL ops U g st = (.err .invalidURL, g, st) := by
  unfold CreateShortURL
  rw [if_pos hv]

/-- **C7, witness** at the malformed string `"notaurl"` over the SQLite
store. -/
theorem c7_invalid_url_no_store_access_witness :
    ValidateURL "notaurl" = false ∧
    CreateShortURL sqliteRepo "notaurl" ⟨fun _ => 0, 0, none⟩
        [("abc", "http://x.example")] =
      (.err .invalidURL, ⟨fun _ => 0, 0, none⟩, [("abc", "http://x.example")]) :=
  ⟨rfl,
   c7_invalid_url_no_store_access sqliteRepo "notaurl" ⟨fun _ => 0, 0, none⟩
     [("abc", "http://x.example")] rfl⟩

/-! ## Claim C9: at most one live mapping per short code -/

/-- The retry loop preserves uniqueness of short codes: it only ever
inserts a code whose forward probe reported not-found. -/
theorem createLoop_uniq_sqlite {U : String} :
    ∀ (fuel : Nat) (g : ByteStream) (st : Store), uniqueCodes st →
      uniqueCodes (createLoop sqliteRepo U fuel g st).2.2
  | 0, g, st => fun hu => hu
  | fuel + 1, g, st => by
    intro hu
    rw [createLoop]
    cases hgen : GenerateRandomString shortCodeLength g with
    | entropyErr => exact hu
    | panicMakeNegLen => exact hu
    | panicSliceNeg => exact hu
    | ok code g' =>
      dsimp only
      cases hfind : st.find? (fun r => r.1 == code) with
      | some r =>
        rw [show sqliteRepo.findByShortCode code st = (.ok r.2, st) from by
              simp [sqliteRepo, sqliteFindByShortCode, hfind]]
        exact createLoop_uniq_sqlite fuel g' st hu
      | none =>
        rw [show sqliteRepo.findByShortCode code st = (.error .notFound, st) from by
              simp [sqliteRepo, sqliteFindByShortCode, hfind]]
        dsimp only
        have hany : st.any (fun r => r.1 == code) = false :=
          any_eq_false_of_find?_none hfind
        rw [show sqliteRepo.saveMapping code U st =
              (.ok ((st.length : Int) + 1), st ++ [(code, U)]) from by
              simp [sqliteRepo, sqliteSaveMapping, hany]]
        dsimp only
        rw [uniqueCodes, List.map_append]
        rw [List.nodup_append]
        refine ⟨hu, by simp, ?_⟩
        intro a ha
        simp only [List.map_cons, List.map_nil, List.mem_singleton]
        intro hcontra
        subst hcontra
        obtain ⟨r, hr, hra⟩ := List.mem_map.mp ha
        have := List.find?_eq_none.mp hfind r hr
        simp [hra] at this

/-- **C9.**  Starting from a store state with unique short codes, every
orchestrator operation — `CreateShortURL`, `UpdateLongURL`,
`DeleteMapping` — preserves the invariant that each `short_code` maps to
at most one `long_url`: creation only inserts a code whose forward probe
reported not-found, update rewrites only `long_url` fields, and delete
only removes rows. -/
theorem c9_unique_code_invariant :
    (∀ (U : String) (g : ByteStream) (st : Store), uniqueCodes st →
        uniqueCodes (CreateShortURL sqliteRepo U g st).2.2) ∧
    (∀ (c u : String) (st : Store), uniqueCodes st →
        uniqueCodes (UpdateLongURLSvc sqliteRepo c u st).2) ∧
    (∀ (c : String) (st : Store), uniqueCodes st →
        uniqueCodes (DeleteMappingSvc sqliteRepo c st).2) := by
  refine ⟨?_, ?_, ?_⟩
  · intro U g st hu
    rcases createShort_sqlite_cases U g st with
      ⟨-, heq⟩ | ⟨-, r, -, -, heq⟩ | ⟨-, -, heq⟩
    · rw [heq]; exact hu
    · rw [heq]; exact hu
    · rw [heq]; exact createLoop_uniq_sqlite _ g st hu
  · intro c u st hu
    unfold UpdateLongURLSvc
    by_cases hv : ValidateURL u = false
    · rw [if_pos hv]; exact hu
    · rw [if_neg hv]
      by_cases hany : st.any (fun r => r.1 == c) = true
      · rw [show sqliteRepo.updateLongURL c u st =
              (.ok (), st.map fun r => if r.1 == c then (r.1, u) else r) from by
              simp [sqliteRepo, sqliteUpdateLongURL, hany]]
        dsimp only
        rw [uniqueCodes, List.map_map]
        have : ((fun r : String × String => r.1) ∘
            fun r : String × String => if r.1 == c then (r.1, u) else r) =
            fun r : String × String => r.1 := by
          funext r
          by_cases h : r.1 = c <;> simp [h]
        rw [show (Prod.fst ∘ fun r : String × String =>
              if r.1 == c then (r.1, u) else r) =
              fun r : String × String => r.1 from this]
        exact hu
      · have hany' : st.any (fun r => r.1 == c) = false :=
          Bool.eq_false_iff.mpr hany
        rw [show sqliteRepo.updateLongURL c u st = (.error .notFound, st) from by
              simp [sqliteRepo, sqliteUpdateLongURL, hany']]
        exact hu
  · intro c st hu
    unfold DeleteMappingSvc
    by_cases hany : st.any (fun r => r.1 == c) = true
    · rw [show sqliteRepo.deleteMapping c st =
            (.ok (), st.filter fun r => ¬(r.1 == c)) from by
            simp [sqliteRepo, sqliteDeleteMapping, hany]]
      dsimp only
      exact List.Nodup.sublist (List.Sublist.map _ (List.filter_sublist st)) hu
    · have hany' : st.any (fun r => r.1 == c) = false :=
        Bool.eq_false_iff.mpr hany
      rw [show sqliteRepo.deleteMapping c st = (.error .notFound, st) from by
            simp [sqliteRepo, sqliteDeleteMapping, hany']]
      exact hu

/-- **C9, witness**: the three preservation statements applied at a
concrete two-row store. -/
theorem c9_unique_code_invariant_witness :
    uniqueCodes [("abc", "http://x.example"), ("de-f", "http://y.example")] ∧
    uniqueCodes (CreateShortURL sqliteRepo "http://z.example"
      ⟨fun _ => 3, 0, none⟩
      [("abc", "http://x.example"), ("de-f", "http://y.example")]).2.2 ∧
    uniqueCodes (UpdateLongURLSvc sqliteRepo "abc" "http://w.example"
      [("abc", "http://x.example"), ("de-f", "http://y.example")]).2 ∧
    uniqueCodes (DeleteMappingSvc sqliteRepo "de-f"
      [("abc", "http://x.example"), ("de-f", "http://y.example")]).2 :=
  ⟨by decide,
   c9_unique_code_invariant.1 "http://z.example" ⟨fun _ => 3, 0, none⟩
     _ (by decide),
   c9_unique_code_invariant.2.1 "abc" "http://w.example" _ (by decide),
   c9_unique_code_invariant.2.2 "de-f" _ (by decide)⟩

/-! ## Claims C4 and C6: the retry loop against adversarial stores -/

/-- Over `raceRepo e` (probe says not-found, insert fails with `e`), the
first loop iteration generates once, probes, attempts exactly one save,
and returns the fatal wrapped save error — it does not continue to the
next attempt. -/
theorem raceRepo_loop (e : RepoErr) (U : String) (fuel : Nat)
    (g : ByteStream) (saves : Nat) (h : g.avail = none) :
    createLoop (raceRepo e) U (fuel + 1) g saves =
      (.err (.saveFailed e), { g with pos := g.pos + 6 }, saves + 1) := by
  obtain ⟨s, hgen, -, -⟩ := GenerateRandomString_nat 7 g h
  have hgen7 : GenerateRandomString shortCodeLength g =
      .ok s { g with pos := g.pos + 6 } := hgen
  rw [createLoop, hgen7]
  dsimp only
  rw [show (raceRepo e).findByShortCode s saves = (.error .notFound, saves)
        from rfl]
  dsimp only
  rw [show (raceRepo e).saveMapping s U saves = (.error e, saves + 1)
        from rfl]

/-- **C4, counterexample.**  The claim says a duplicate-constraint
violation at the persist step is treated as a collision and retried.  In
fact, over a store whose probe reports not-found and whose insert then
fails with the uniqueness violation (the §5 probe-then-insert race),
`CreateShortURL` returns the fatal wrapped storage error
`saveFailed uniqueConstraint` after a single generation (the stream
advanced 6 bytes) and a single save attempt (counter 1): no retry
happens and the outcome is not `exhaustedRetries`. -/
theorem c4_counterexample_fatal_not_retried :
    (CreateShortURL (raceRepo .uniqueConstraint) "http://example.com"
        ⟨fun _ => 0, 0, none⟩ 0).1 = .err (.saveFailed .uniqueConstraint) ∧
    (CreateShortURL (raceRepo .uniqueConstraint) "http://example.com"
        ⟨fun _ => 0, 0, none⟩ 0).2.2 = 1 ∧
    (CreateShortURL (raceRepo .uniqueConstraint) "http://example.com"
        ⟨fun _ => 0, 0, none⟩ 0).2.1.pos = 6 ∧
    SvcResult.err (.saveFailed .uniqueConstraint) ≠
      SvcResult.err .exhaustedRetries :=
  ⟨rfl, rfl, rfl, by decide⟩

/-- **C4, amended.**  When the store rejects the persist step with any
error `e` — including a uniqueness/duplicate-constraint violation — the
orchestrator does **not** treat it as a collision: it fails the request
immediately with the fatal wrapped storage error `saveFailed e`, after
exactly one generation (6 bytes of entropy) and one `SaveMapping` call,
leaving the remaining retry budget unused.  (Collision retry happens only
via the pre-insert probe, exactly as §9 of the spec describes the
original implementation.) -/
theorem c4_save_error_is_fatal (e : RepoErr) (U : String) (g : ByteStream)
    (hv : ValidateURL U = true) (ha : g.avail = none) :
    CreateShortURL (raceRepo e) U g 0 =
      (.err (.saveFailed e), { g with pos := g.pos + 6 }, 1) := by
  unfold CreateShortURL
  rw [if_neg (by rw [hv]; exact fun hcontra => Bool.noConfusion hcontra)]
  rw [show (raceRepo e).findByLongURL U 0 = (.ok "", 0) from rfl]
  dsimp only
  rw [if_neg (by simp),
      show maxGenerationRetries = 4 + 1 from rfl,
      raceRepo_loop e U 4 g 0 ha]

/-- **C4, witness** for `c4_save_error_is_fatal` at the uniqueness
violation on a concrete input. -/
theorem c4_save_error_is_fatal_witness :
    ValidateURL "http://example.com" = true ∧
    CreateShortURL (raceRepo .uniqueConstraint) "http://example.com"
        ⟨fun _ => 9, 2, none⟩ 0 =
      (.err (.saveFailed .uniqueConstraint), ⟨fun _ => 9, 2 + 6, none⟩, 1) :=
  ⟨rfl,
   c4_save_error_is_fatal .uniqueConstraint "http://example.com"
     ⟨fun _ => 9, 2, none⟩ rfl rfl⟩

/-- Over `collideRepo`, every iteration of the loop generates a candidate
(6 bytes), probes it (reported present), and recurses: `fuel` iterations
consume `6 * fuel` bytes and `fuel` probes, no save, and end in
`exhaustedRetries`. -/
theorem collideRepo_loop (U : String) :
    ∀ (fuel : Nat) (g : ByteStream) (probes saves : Nat), g.avail = none →
      createLoop collideRepo U fuel g (probes, saves) =
        (.err .exhaustedRetries, { g with pos := g.pos + 6 * fuel },
         (probes + fuel, saves))
  | 0, g, probes, saves => fun _ => rfl
  | fuel + 1, g, probes, saves => by
    intro h
    obtain ⟨s, hgen, -, -⟩ := GenerateRandomString_nat 7 g h
    have hgen7 : GenerateRandomString shortCodeLength g =
        .ok s { g with pos := g.pos + 6 } := hgen
    rw [createLoop, hgen7]
    dsimp only
    rw [show collideRepo.findByShortCode s (probes, saves) =
          (.ok "http://existing.example", (probes + 1, saves)) from rfl]
    dsimp only
    rw [collideRepo_loop U fuel { g with pos := g.pos + 6 }
          (probes + 1) saves h]
    have h1 : g.pos + 6 + 6 * fuel = g.pos + 6 * (fuel + 1) := by ring
    have h2 : probes + 1 + fuel = probes + (fuel + 1) := by ring
    rw [h1, h2]

/-- **C6.**  If the long URL is valid, the store holds no mapping for it,
and the forward probe reports every generated candidate as already
present, then `CreateShortURL` fails with `exhaustedRetries`, makes no
`SaveMapping` call (save counter stays 0), and attempts generation
exactly 5 times (5 probes; 5 × 6 = 30 bytes of entropy consumed). -/
theorem c6_exhausts_after_five_collisions (U : String) (g : ByteStream)
    (hv : ValidateURL U = true) (ha : g.avail = none) :
    CreateShortURL collideRepo U g (0, 0) =
      (.err .exhaustedRetries, { g with pos := g.pos + 30 }, (5, 0)) := by
  unfold CreateShortURL
  rw [if_neg (by rw [hv]; exact fun hcontra => Bool.noConfusion hcontra)]
  rw [show collideRepo.findByLongURL U (0, 0) = (.ok "", (0, 0)) from rfl]
  dsimp only
  rw [if_neg (by simp), collideRepo_loop U maxGenerationRetries g 0 0 ha]
  rfl

/-- **C6, witness** on a concrete input. -/
theorem c6_exhausts_after_five_collisions_witness :
    ValidateURL "http://example.com" = true ∧
    CreateShortURL collideRepo "http://example.com"
        ⟨fun _ => 0, 0, none⟩ (0, 0) =
      (.err .exhaustedRetries, ⟨fun _ => 0, 0 + 30, none⟩, (5, 0)) :=
  ⟨rfl,
   c6_exhausts_after_five_collisions "http://example.com"
     ⟨fun _ => 0, 0, none⟩ rfl rfl⟩

/-! ## Claim C8: the validity predicate of `ValidateURL` -/

/-- Every success of `parseAfterScheme` carries the scheme it was given. -/
theorem parseAfterScheme_scheme {scheme : String} {rest rawQuery : List Char}
    {fq vr : Bool} {u : GoURL}
    (h : parseAfterScheme scheme rest rawQuery fq vr = .ok u) :
    u.scheme = scheme := by
  unfold parseAfterScheme at h
  dsimp only at h
  repeat' split at h
  all_goals cases h
  all_goals rfl

/-- Every success of `parse` (in request mode) has as its scheme the
ASCII-lowercased raw scheme extracted by `getScheme` — this is the
`url.Scheme = strings.ToLower(url.Scheme)` normalization step. -/
theorem parse_ok_scheme {raw : List Char} {u : GoURL}
    (h : parse raw true = .ok u) :
    ∃ schemeRaw rest0, getScheme raw = .ok (schemeRaw, rest0) ∧
      u.scheme = String.mk (schemeRaw.map asciiToLower) := by
  unfold parse at h
  dsimp only at h
  repeat' split at h
  all_goals try cases h
  · rename_i hstar
    exact ⟨[], ['*'], by rw [hstar]; rfl, rfl⟩
  · rename_i schemeRaw rest0 hgs hq
    exact ⟨schemeRaw, rest0, hgs, parseAfterScheme_scheme h⟩
  · rename_i schemeRaw rest0 hgs hq
    exact ⟨schemeRaw, rest0, hgs, parseAfterScheme_scheme h⟩

theorem mk_beq_lit (l : List Char) (t : String) :
    (String.mk l == t) = (l == t.data) := by
  rw [Bool.eq_iff_iff, beq_iff_eq, beq_iff_eq]
  cases t
  simp [String.ext_iff]

/-- **C8, counterexample.**  The claim requires a case-sensitive scheme
comparison, under which `"HTTP://example.com"` is invalid.  The code
accepts it: Go's parser lowercases the scheme before `ValidateURL`
compares it. -/
theorem c8_counterexample_uppercase_scheme :
    ValidateURL "HTTP://example.com" = true ∧
    specValidURLStrict "HTTP://example.com" = false :=
  ⟨rfl, rfl⟩

/-- **C8, amended.**  `ValidateURL` returns true for an input string iff
it parses as an absolute request URI whose raw scheme, *after ASCII
lowercasing* (the parser normalizes the scheme to lowercase), is `http`
or `https`, and whose host component is non-empty — so the scheme match
is case-insensitive on the input and e.g. `"HTTP://example.com"` is
valid; relative paths, missing schemes, opaque schemes, and empty hosts
remain invalid. -/
theorem c8_validate_url_characterization :
    (∀ s : String, ValidateURL s = specValidURLLower s) ∧
    ValidateURL "HTTP://example.com" = true := by
  refine ⟨?_, rfl⟩
  intro s
  unfold ValidateURL specValidURLLower
  cases hp : ParseRequestURI s with
  | error e => rfl
  | ok u =>
    obtain ⟨schemeRaw, rest0, hgs, hscheme⟩ := parse_ok_scheme hp
    dsimp only
    rw [hgs]
    dsimp only
    rw [hscheme, mk_beq_lit, mk_beq_lit]

/-- **C10, witness** for `c10_nonpositive_length_behaviour` at concrete
streams and lengths. -/
theorem c10_nonpositive_length_behaviour_witness :
    GenerateRandomString 0 ⟨fun _ => 0, 0, none⟩ =
      .ok "" ⟨fun _ => 0, 0 + 1, none⟩ ∧
    GenerateRandomString (-1) ⟨fun _ => 0, 0, none⟩ = .panicSliceNeg ∧
    GenerateRandomString (-2) ⟨fun _ => 0, 0, none⟩ = .panicSliceNeg ∧
    GenerateRandomString (-5) ⟨fun _ => 0, 0, none⟩ = .panicMakeNegLen :=
  ⟨c10_nonpositive_length_behaviour.1 ⟨fun _ => 0, 0, none⟩ rfl,
   c10_nonpositive_length_behaviour.2.1 ⟨fun _ => 0, 0, none⟩ rfl,
   c10_nonpositive_length_behaviour.2.2.1 ⟨fun _ => 0, 0, none⟩,
   c10_nonpositive_length_behaviour.2.2.2 (-5) ⟨fun _ => 0, 0, none⟩
     (by decide)⟩

end GoShortener
